import Mathlib

/-!
# Verification of the gotunnel health / readiness / graceful-shutdown core

Shallow embedding of the health aggregation service (`internal/health`),
the HTTP health endpoints and the coordinated shutdown sequence of
`cmd/server/main.go`, and the structured logger (`internal/logging`),
together with theorems settling the specification claims about them.

Go's `map[string]interface{}` values are embedded as a small inductive
`JValue` type; the checker map is embedded as an insertion-ordered
association list with replace-on-insert, matching Go map semantics up to
iteration order.  A checker invocation that never returns is embedded as
`none`, so an operation that would block forever in Go is an `Option`
that is `none`.
-/

namespace GoTunnel

/-- Dynamic JSON-like value, embedding Go `map[string]interface{}` entries. -/
inductive JValue where
  | str  : String → JValue
  | bool : Bool → JValue
  | obj  : List (String × JValue) → JValue

/-- Key lookup on a `JValue.obj`; `none` on non-objects or missing keys. -/
def jLookup : JValue → String → Option JValue
  | JValue.obj fields, k => (fields.find? (fun p => p.1 = k)).map Prod.snd
  | _, _ => none

/-- The list of keys of a `JValue.obj` (empty on non-objects). -/
def jKeys : JValue → List String
  | JValue.obj fields => fields.map Prod.fst
  | _ => []

/-- Go interface equality `v == s` between a dynamic value and a string:
true exactly when the value is that string. -/
def jEqStr : Option JValue → String → Bool
  | some (JValue.str t), s => t = s
  | _, _ => false

/-- A registered health checker (`HealthChecker` interface): a stable name
and the behaviour of its `Check(ctx)` method.  `response = none` embeds a
call that never returns; `some none` a call returning `nil`;
`some (some e)` a call returning the error string `e`. -/
structure HealthChecker where
  Name : String
  response : Option (Option String)
deriving DecidableEq, Repr

/-- A checker fails when its `Check` returns a non-nil error. -/
def checkerFails (c : HealthChecker) : Bool :=
  match c.response with
  | some (some _) => true
  | _ => false

/-- State of `health.HealthService`: the checker map (embedded as an
insertion-ordered association list keyed by name) and the two flags. -/
structure HealthService where
  checkers : List (String × HealthChecker)
  ready : Bool
  shuttingDown : Bool
deriving DecidableEq, Repr

/-- Go constructor `health.NewHealthService()`: empty checker map, both flags false. -/
def NewHealthService : HealthService :=
  { checkers := [], ready := false, shuttingDown := false }

/-- Go map assignment `m[k] = v`: replaces the entry at `k` if present,
otherwise appends a new entry.  (Keys are unique in every map built from
the empty map by `mapInsert`, so replacing the first occurrence is the
general case.) -/
def mapInsert : List (String × HealthChecker) → String → HealthChecker →
    List (String × HealthChecker)
  | [], k, v => [(k, v)]
  | p :: rest, k, v => if p.1 = k then (k, v) :: rest else p :: mapInsert rest k v

/-- Method `HealthService.RegisterChecker`: `h.checkers[checker.Name()] = checker`
under the write lock. -/
def HealthService.RegisterChecker (h : HealthService) (c : HealthChecker) : HealthService :=
  { h with checkers := mapInsert h.checkers c.Name c }

/-- Method `HealthService.SetReady`. -/
def HealthService.SetReady (h : HealthService) (b : Bool) : HealthService :=
  { h with ready := b }

/-- Method `HealthService.SetShuttingDown`. -/
def HealthService.SetShuttingDown (h : HealthService) (b : Bool) : HealthService :=
  { h with shuttingDown := b }

/-- Modelled from the spec: `isReady()` takes the read side of the lock and
returns the current `ready` flag.  `cmd/server/main.go` calls
`healthService.IsReady()` but the method body is not under `src/`. -/
def HealthService.IsReady (h : HealthService) : Bool := h.ready

/-- Modelled from the spec: `isShuttingDown()` takes the read side of the
lock and returns the current `shuttingDown` flag.  `cmd/server/main.go`
calls `healthService.IsShuttingDown()` but the method body is not under
`src/`. -/
def HealthService.IsShuttingDown (h : HealthService) : Bool := h.shuttingDown

/-- The sequential checker loop inside `HealthService.Check`: iterates the
registered checkers in order, building the `checks` sub-object and the
flag recording whether any checker failed.  If some checker's `Check`
never returns, the loop — and hence the whole aggregation — never
returns, embedded as `none`. -/
def runCheckers : List (String × HealthChecker) → Option (List (String × JValue) × Bool)
  | [] => some ([], false)
  | (name, c) :: rest =>
    match c.response with
    | none => none
    | some (some e) =>
      (runCheckers rest).map (fun r =>
        ((name, JValue.obj [("status", JValue.str "unhealthy"),
                            ("error", JValue.str e)]) :: r.1, true))
    | some none =>
      (runCheckers rest).map (fun r =>
        ((name, JValue.obj [("status", JValue.str "healthy")]) :: r.1, r.2))

/-- Method `HealthService.Check(ctx)`: under one read-lock acquisition, builds the
report map with keys `status`, `timestamp`, `ready`, `shutting_down`,
`checks`.  `timestamp` stands for `time.Now().UTC().Format(time.RFC3339)`.
The result is `none` when some registered checker never returns, since the
sequential loop then blocks forever. -/
def HealthService.Check (h : HealthService) (timestamp : String) : Option JValue :=
  (runCheckers h.checkers).map (fun r =>
    JValue.obj [
      ("status", JValue.str (if r.2 then "unhealthy" else "healthy")),
      ("timestamp", JValue.str timestamp),
      ("ready", JValue.bool h.ready),
      ("shutting_down", JValue.bool h.shuttingDown),
      ("checks", JValue.obj r.1)])

/-- The `checks` entry that the loop in `Check` builds for one checker
whose `Check` returned: an object with keys `status` and, on failure,
`error` carrying the checker's own error string. -/
def checkEntry (c : HealthChecker) : JValue :=
  match c.response with
  | some (some e) => JValue.obj [("status", JValue.str "unhealthy"), ("error", JValue.str e)]
  | _ => JValue.obj [("status", JValue.str "healthy")]

/-- The `/readyz` handler of `setupHTTPServer`: HTTP status and body,
computed from the two flags alone. -/
def readyzHandler (h : HealthService) : Nat × String :=
  if h.IsShuttingDown then (503, "shutting down")
  else if !h.IsReady then (503, "not ready")
  else (200, "ready")

/-- The `/healthz` handler of `setupHTTPServer`: runs the aggregation, then
returns 503 when the report status is `"unhealthy"` or the service is
shutting down, 200 otherwise; the body is the encoded report.  `none` when
the aggregation never returns. -/
def healthzHandler (h : HealthService) (timestamp : String) : Option (Nat × JValue) :=
  (h.Check timestamp).map (fun result =>
    (if jEqStr (jLookup result "status") "unhealthy" || h.IsShuttingDown
     then 503 else 200,
     result))

/-!
## Structured logger (`internal/logging`) -/

/-- Log levels `DEBUG < INFO < WARN < ERROR < FATAL` (Go `iota`). -/
inductive Level where
  | DEBUG
  | INFO
  | WARN
  | ERROR
  | FATAL
deriving DecidableEq, Repr

/-- Numeric value of a level (the Go `iota` constant). -/
def Level.toNat : Level → Nat
  | .DEBUG => 0
  | .INFO => 1
  | .WARN => 2
  | .ERROR => 3
  | .FATAL => 4

/-- Method `Level.String()`. -/
def Level.name : Level → String
  | .DEBUG => "DEBUG"
  | .INFO => "INFO"
  | .WARN => "WARN"
  | .ERROR => "ERROR"
  | .FATAL => "FATAL"

/-- Configuration of `logging.JSONFormatter`. -/
structure JSONFormatter where
  TimestampFormat : String
  PrettyPrint : Bool
deriving DecidableEq, Repr

/-- State of `logging.Logger`: minimum level, identity strings, the formatter and an
opaque identity for the output file handle (`os.Stdout` has id 1). -/
structure Logger where
  level : Level
  serviceName : String
  environment : String
  formatter : JSONFormatter
  output : Nat
deriving DecidableEq, Repr

/-- Go constructor `logging.NewLogger(serviceName, environment, level)`. -/
def NewLogger (serviceName environment : String) (level : Level) : Logger :=
  { level := level, serviceName := serviceName, environment := environment,
    formatter := { TimestampFormat := "", PrettyPrint := false }, output := 1 }

/-- A log record as assembled by `Logger.log` before formatting; `traceID`
and `spanID` are the values extracted from the context. -/
structure LogEntry where
  level : String
  service : String
  environment : String
  message : String
  traceID : Option String
  spanID : Option String
  fields : List (String × JValue)

/-- Method `Logger.log(ctx, level, msg, fields)`: drops the record when the level
is below the logger's minimum, otherwise emits the assembled entry to the
logger's output.  The context is embedded as its trace/span values. -/
def Logger.logRecord (l : Logger) (traceID spanID : Option String) (level : Level)
    (msg : String) (fields : List (String × JValue)) : Option (Nat × LogEntry) :=
  if level.toNat < l.level.toNat then none
  else some (l.output,
    { level := level.name, service := l.serviceName, environment := l.environment,
      message := msg, traceID := traceID, spanID := spanID, fields := fields })

/-- Method `Logger.WithFields(fields)`: builds a new `Logger` copying `level`,
`serviceName`, `environment`, `formatter` and `output`; the `fields`
argument is not stored anywhere. -/
def Logger.WithFields (l : Logger) (fields : List (String × JValue)) : Logger :=
  { level := l.level, serviceName := l.serviceName, environment := l.environment,
    formatter := l.formatter, output := l.output }

/-!
## The coordinated shutdown sequence of `cmd/server/main.go`

After `<-sigChan` fires, `main` runs, strictly in order:
`SetShuttingDown(true)`; `SetReady(false)`; `httpServer.Shutdown(shutdownCtx)`;
`server.Shutdown(shutdownCtx)`.  The program counter below has one state
per completed step; probes run concurrently and only read the registry, so
the reachable states of the pair (program counter, registry) describe every
interleaving a probe can observe. -/

/-- Program counter of the shutdown goroutine in `main`. -/
inductive SPC where
  | triggered
  | flaggedDown
  | notReady
  | httpDown
  | done
deriving DecidableEq, Repr

/-- One step of the shutdown sequence.  The two teardown steps do not
touch the registry. -/
inductive ShutdownStep : SPC × HealthService → SPC × HealthService → Prop where
  | setShuttingDown (h : HealthService) :
      ShutdownStep (SPC.triggered, h) (SPC.flaggedDown, h.SetShuttingDown true)
  | setReady (h : HealthService) :
      ShutdownStep (SPC.flaggedDown, h) (SPC.notReady, h.SetReady false)
  | httpShutdown (h : HealthService) :
      ShutdownStep (SPC.notReady, h) (SPC.httpDown, h)
  | tunnelShutdown (h : HealthService) :
      ShutdownStep (SPC.httpDown, h) (SPC.done, h)

/-- States reachable from the moment the shutdown signal is received, with
registry state `h₀`. -/
def ShutdownReachable (h₀ : HealthService) (s : SPC × HealthService) : Prop :=
  Relation.ReflTransGen ShutdownStep (SPC.triggered, h₀) s

/-!
## Component teardown under the shared deadline

`main` computes one 30-second context (`shutdownCtx`) and then calls
`httpServer.Shutdown(shutdownCtx)` and `server.Shutdown(shutdownCtx)` one
after the other, logging each error. -/

/-- Modelled from the spec: a shutdownable long-running component exposing
`Shutdown(ctx) error`.  The HTTP server's `Shutdown` lives in `net/http`
and the tunnel server's in `internal/tunnel`, neither under `src/`; per
the spec's component contract both respect the context deadline.
`drainTime = some d` means the component needs `d` time units to drain;
`none` means its teardown never finishes on its own. -/
structure Component where
  name : String
  drainTime : Option Nat
deriving DecidableEq, Repr

/-- Call `c.Shutdown(ctx)` invoked at absolute time `now` against a context
whose absolute deadline is `deadline`: returns the time at which the call
returns and the error.  A component that cannot drain by the deadline
returns `context.DeadlineExceeded` when the deadline passes (immediately
if it has already passed). -/
def componentShutdown (c : Component) (now deadline : Nat) : Nat × Option String :=
  match c.drainTime with
  | some d =>
    if now + d ≤ deadline then (now + d, none)
    else (max now deadline, some "context deadline exceeded")
  | none => (max now deadline, some "context deadline exceeded")

/-- The teardown sequence of `main` lines 119–130: each component's
`Shutdown` is invoked only after the previous call has returned, all
sharing the one deadline.  Returns the time at which the last call
returns, and per component the triple
(name, time its `Shutdown` was invoked, error returned). -/
def runShutdownSeq (deadline : Nat) :
    List Component → Nat → Nat × List (String × Nat × Option String)
  | [], now => (now, [])
  | c :: rest, now =>
    let r := componentShutdown c now deadline
    let s := runShutdownSeq deadline rest r.1
    (s.1, (c.name, now, r.2) :: s.2)

/-!
## Fine-grained model of `Check` under the reader-writer lock

`HealthService.Check` takes `h.mu.RLock()` once, reads both flags and
iterates the checker map, and releases the lock at return.  The writers
(`SetReady`, `SetShuttingDown`, `RegisterChecker`) take `h.mu.Lock()`,
which is mutually exclusive with the read lock.  The model below makes
each read inside `Check` its own step and lets writer operations
interleave whenever the read lock is free. -/

/-- Local state of one in-flight `Check` call.  `snapshot` is a ghost
field recording the registry state at the moment the read lock was
acquired. -/
structure CheckFrame where
  snapshot : HealthService
  readyVal : Option Bool
  shuttingVal : Option Bool
  processed : List (String × JValue)
  anyFail : Bool
  remaining : List (String × HealthChecker)

/-- Phase of the aggregation call: not started, holding the read lock, or
returned with a report. -/
inductive CheckPhase where
  | idle : CheckPhase
  | running : CheckFrame → CheckPhase
  | finished : JValue → CheckPhase

/-- Whether the aggregation currently holds the read side of the lock. -/
def holdsReadLock : CheckPhase → Bool
  | CheckPhase.running _ => true
  | _ => false

/-- A writer operation on the registry: `SetReady`, `SetShuttingDown` or
`RegisterChecker`. -/
inductive WriterOp where
  | setReady : Bool → WriterOp
  | setShuttingDown : Bool → WriterOp
  | registerChecker : HealthChecker → WriterOp

/-- Effect of a writer operation. -/
def applyWriter : WriterOp → HealthService → HealthService
  | WriterOp.setReady b, h => h.SetReady b
  | WriterOp.setShuttingDown b, h => h.SetShuttingDown b
  | WriterOp.registerChecker c, h => h.RegisterChecker c

/-- Shared system state: the registry and the phase of the one aggregation
call under scrutiny. -/
structure SysState where
  svc : HealthService
  phase : CheckPhase

/-- Interleaved steps of the aggregation call and concurrent writers.
Writer steps require the read lock to be free, as `h.mu.Lock()` blocks
while `Check` holds `h.mu.RLock()`.  A checker whose `Check` never
returns has no step: the aggregation then occupies the lock forever. -/
inductive RegStep (ts : String) : SysState → SysState → Prop where
  | acquire (s : HealthService) :
      RegStep ts ⟨s, CheckPhase.idle⟩
        ⟨s, CheckPhase.running ⟨s, none, none, [], false, s.checkers⟩⟩
  | readReady (s sn : HealthService) (rem : List (String × HealthChecker)) :
      RegStep ts ⟨s, CheckPhase.running ⟨sn, none, none, [], false, rem⟩⟩
        ⟨s, CheckPhase.running ⟨sn, some s.ready, none, [], false, rem⟩⟩
  | readShutting (s sn : HealthService) (rv : Bool) (rem : List (String × HealthChecker)) :
      RegStep ts ⟨s, CheckPhase.running ⟨sn, some rv, none, [], false, rem⟩⟩
        ⟨s, CheckPhase.running ⟨sn, some rv, some s.shuttingDown, [], false, rem⟩⟩
  | checkerFail (s sn : HealthService) (rv sv : Bool) (done : List (String × JValue))
      (af : Bool) (name : String) (c : HealthChecker)
      (rest : List (String × HealthChecker)) (e : String)
      (hresp : c.response = some (some e)) :
      RegStep ts ⟨s, CheckPhase.running ⟨sn, some rv, some sv, done, af, (name, c) :: rest⟩⟩
        ⟨s, CheckPhase.running ⟨sn, some rv, some sv,
          done ++ [(name, JValue.obj [("status", JValue.str "unhealthy"),
                                      ("error", JValue.str e)])], true, rest⟩⟩
  | checkerOk (s sn : HealthService) (rv sv : Bool) (done : List (String × JValue))
      (af : Bool) (name : String) (c : HealthChecker)
      (rest : List (String × HealthChecker))
      (hresp : c.response = some none) :
      RegStep ts ⟨s, CheckPhase.running ⟨sn, some rv, some sv, done, af, (name, c) :: rest⟩⟩
        ⟨s, CheckPhase.running ⟨sn, some rv, some sv,
          done ++ [(name, JValue.obj [("status", JValue.str "healthy")])], af, rest⟩⟩
  | release (s sn : HealthService) (rv sv : Bool) (done : List (String × JValue)) (af : Bool) :
      RegStep ts ⟨s, CheckPhase.running ⟨sn, some rv, some sv, done, af, []⟩⟩
        ⟨s, CheckPhase.finished (JValue.obj [
          ("status", JValue.str (if af then "unhealthy" else "healthy")),
          ("timestamp", JValue.str ts),
          ("ready", JValue.bool rv),
          ("shutting_down", JValue.bool sv),
          ("checks", JValue.obj done)])⟩
  | writer (s : HealthService) (op : WriterOp) (p : CheckPhase)
      (hfree : holdsReadLock p = false) :
      RegStep ts ⟨s, p⟩ ⟨applyWriter op s, p⟩

/-- System states reachable from registry state `svc₀` with the
aggregation not yet started. -/
def RegReachable (ts : String) (svc₀ : HealthService) (s : SysState) : Prop :=
  Relation.ReflTransGen (RegStep ts) ⟨svc₀, CheckPhase.idle⟩ s

/-- Registry contents at every reachable point of the shutdown sequence. -/
theorem shutdown_reachable_cases (h₀ : HealthService) (s : SPC × HealthService)
    (hreach : ShutdownReachable h₀ s) :
    (s.1 = SPC.triggered → s.2 = h₀) ∧
    (s.1 = SPC.flaggedDown → s.2 = h₀.SetShuttingDown true) ∧
    (s.1 ≠ SPC.triggered → s.1 ≠ SPC.flaggedDown →
      s.2 = (h₀.SetShuttingDown true).SetReady false) := by
  induction hreach with
  | refl => simp
  | tail _ hstep ih =>
    cases hstep with
    | setShuttingDown h =>
      refine ⟨by simp, ?_, by simp⟩
      intro _
      exact congrArg (fun x => x.SetShuttingDown true) (ih.1 rfl)
    | setReady h =>
      refine ⟨by simp, by simp, ?_⟩
      intro _ _
      exact congrArg (fun x => x.SetReady false) (ih.2.1 rfl)
    | httpShutdown h =>
      refine ⟨by simp, by simp, ?_⟩
      intro _ _
      exact ih.2.2 (by simp) (by simp)
    | tunnelShutdown h =>
      refine ⟨by simp, by simp, ?_⟩
      intro _ _
      exact ih.2.2 (by simp) (by simp)

/-- The sequential checker loop returns exactly when every checker's
`Check` returns. -/
theorem runCheckers_isSome (cs : List (String × HealthChecker)) :
    (runCheckers cs).isSome = cs.all (fun p => p.2.response.isSome) := by
  induction cs with
  | nil => rfl
  | cons p rest ih =>
    rcases p with ⟨n, c⟩
    rcases hc : c.response with - | (- | e) <;>
      simp [runCheckers, hc, ← ih]

/-- Characterization of a completed checker loop: the entries are exactly
`checkEntry` of each checker in order, and the failure flag records
whether any checker failed. -/
theorem runCheckers_eq (cs : List (String × HealthChecker))
    (res : List (String × JValue)) (af : Bool)
    (h : runCheckers cs = some (res, af)) :
    res = cs.map (fun p => (p.1, checkEntry p.2)) ∧
    af = cs.any (fun p => checkerFails p.2) := by
  induction cs generalizing res af with
  | nil =>
    rw [runCheckers] at h
    obtain ⟨rfl, rfl⟩ := Prod.mk.injEq .. ▸ Option.some.inj h
    simp
  | cons p rest ih =>
    rcases p with ⟨n, c⟩
    rcases hc : c.response with - | (- | e)
    · rw [runCheckers, hc] at h
      exact absurd h (by simp)
    · rw [runCheckers, hc] at h
      rcases Option.map_eq_some'.mp h with ⟨⟨r1, a1⟩, hr, he⟩
      obtain ⟨hres, haf⟩ := ih r1 a1 hr
      obtain ⟨rfl, rfl⟩ := Prod.mk.injEq .. ▸ he
      simp [checkEntry, checkerFails, hc, hres, haf]
    · rw [runCheckers, hc] at h
      rcases Option.map_eq_some'.mp h with ⟨⟨r1, a1⟩, hr, he⟩
      obtain ⟨hres, haf⟩ := ih r1 a1 hr
      obtain ⟨rfl, rfl⟩ := Prod.mk.injEq .. ▸ he
      simp [checkEntry, checkerFails, hc, hres]

/-- C2 (counterexample): with one registered checker whose `Check` never
returns, `HealthService.Check` never returns either — there is no
deadline after which it comes back with the checker marked as failed with
a timeout reason, contrary to the claim. -/
theorem check_unresponsive_blocks :
    ({ checkers := [("stuck", { Name := "stuck", response := none })],
       ready := true, shuttingDown := false } : HealthService).Check
      "2024-01-01T00:00:00Z" = none := rfl

/-- C2 (amended): `HealthService.Check` imposes no deadline of its own: it
invokes the registered checkers sequentially and returns exactly when
every checker's `Check` returns; one unresponsive checker blocks the
whole aggregation indefinitely, and no timeout reason is ever recorded. -/
theorem check_returns_iff_all_respond (h : HealthService) (ts : String) :
    (h.Check ts).isSome = h.checkers.all (fun p => p.2.response.isSome) ∧
    ((∃ p ∈ h.checkers, p.2.response = none) → h.Check ts = none) := by
  have hs : (h.Check ts).isSome = h.checkers.all (fun p => p.2.response.isSome) := by
    have h1 : (h.Check ts).isSome = (runCheckers h.checkers).isSome := by
      rw [HealthService.Check]
      cases runCheckers h.checkers <;> rfl
    rw [h1]
    exact runCheckers_isSome h.checkers
  refine ⟨hs, fun ⟨p, hmem, hresp⟩ => ?_⟩
  rw [← Option.not_isSome_iff_eq_none, hs]
  intro htrue
  have hp := List.all_eq_true.mp htrue p hmem
  rw [hresp] at hp
  exact absurd hp (by simp)

/-- C2 witness for the amended theorem's hypothesis: a concrete service
with an unresponsive checker on which `Check` does not return. -/
theorem check_returns_iff_all_respond_witness :
    ({ checkers := [("stuck", { Name := "stuck", response := none }),
                    ("ok", { Name := "ok", response := some none })],
       ready := false, shuttingDown := false } : HealthService).Check "t" = none :=
  (check_returns_iff_all_respond _ "t").2
    ⟨("stuck", { Name := "stuck", response := none }), by simp, rfl⟩

/-- C3: the aggregated `status` is `"unhealthy"` exactly when some
registered checker fails, `"healthy"` otherwise; in particular an empty
checker set yields `"healthy"`. -/
theorem check_status_aggregation (h : HealthService) (ts : String) (r : JValue)
    (hr : h.Check ts = some r) :
    jLookup r "status" = some (JValue.str
      (if h.checkers.any (fun p => checkerFails p.2) then "unhealthy" else "healthy")) ∧
    (h.checkers = [] → jLookup r "status" = some (JValue.str "healthy")) := by
  rcases Option.map_eq_some'.mp hr with ⟨⟨res, af⟩, hrc, he⟩
  obtain ⟨-, haf⟩ := runCheckers_eq _ _ _ hrc
  subst he
  constructor
  · rw [show jLookup (JValue.obj [
        ("status", JValue.str (if af then "unhealthy" else "healthy")),
        ("timestamp", JValue.str ts), ("ready", JValue.bool h.ready),
        ("shutting_down", JValue.bool h.shuttingDown),
        ("checks", JValue.obj res)]) "status"
      = some (JValue.str (if af then "unhealthy" else "healthy")) from rfl, haf]
  · intro hnil
    rw [show jLookup (JValue.obj [
        ("status", JValue.str (if af then "unhealthy" else "healthy")),
        ("timestamp", JValue.str ts), ("ready", JValue.bool h.ready),
        ("shutting_down", JValue.bool h.shuttingDown),
        ("checks", JValue.obj res)]) "status"
      = some (JValue.str (if af then "unhealthy" else "healthy")) from rfl, haf, hnil]
    simp

/-- C3 witness: one failing checker among two yields `"unhealthy"`. -/
theorem check_status_aggregation_witness :
    jLookup (JValue.obj [
      ("status", JValue.str "unhealthy"),
      ("timestamp", JValue.str "t"), ("ready", JValue.bool true),
      ("shutting_down", JValue.bool false),
      ("checks", JValue.obj [
        ("certificate", JValue.obj [("status", JValue.str "unhealthy"),
                                    ("error", JValue.str "cert expired")]),
        ("tunnel_connections", JValue.obj [("status", JValue.str "healthy")])])])
      "status" = some (JValue.str "unhealthy") := by
  have h := check_status_aggregation
    { checkers := [("certificate", { Name := "certificate", response := some (some "cert expired") }),
                   ("tunnel_connections", { Name := "tunnel_connections", response := some none })],
      ready := true, shuttingDown := false } "t" _ rfl
  simpa using h.1

/-- C4: the `/readyz` handler checks `shuttingDown` first (503 with body
`"shutting down"`), then `ready` (503 with body `"not ready"`), then
returns 200 with body `"ready"`; it depends only on the two flags, never
on any registered checker. -/
theorem readyz_precedence (h : HealthService) :
    (h.shuttingDown = true → readyzHandler h = (503, "shutting down")) ∧
    (h.shuttingDown = false → h.ready = false → readyzHandler h = (503, "not ready")) ∧
    (h.shuttingDown = false → h.ready = true → readyzHandler h = (200, "ready")) ∧
    (∀ cs, readyzHandler { h with checkers := cs } = readyzHandler h) := by
  refine ⟨fun hsd => ?_, fun hsd hrd => ?_, fun hsd hrd => ?_, fun cs => ?_⟩ <;>
    simp [readyzHandler, HealthService.IsShuttingDown, HealthService.IsReady, *]

/-- C4 witness: with both flags set, `/readyz` reports shutting down. -/
theorem readyz_precedence_witness :
    readyzHandler { checkers := [], ready := true, shuttingDown := true } =
      (503, "shutting down") :=
  (readyz_precedence _).1 rfl

/-- C6: `/healthz` returns 503 exactly when the aggregated report is
unhealthy (some checker failed) or the service is shutting down, 200
otherwise, and the body is the full report in both cases. -/
theorem healthz_status_mapping (h : HealthService) (ts : String) (p : Nat × JValue)
    (hp : healthzHandler h ts = some p) :
    h.Check ts = some p.2 ∧
    (p.1 = 503 ∨ p.1 = 200) ∧
    (p.1 = 503 ↔ (h.checkers.any (fun q => checkerFails q.2) = true ∨ h.shuttingDown = true)) := by
  rcases Option.map_eq_some'.mp hp with ⟨r, hr, he⟩
  rcases Option.map_eq_some'.mp hr with ⟨⟨res, af⟩, hrc, hrep⟩
  obtain ⟨-, haf⟩ := runCheckers_eq _ _ _ hrc
  have hp1 : p.1 = if (jEqStr (jLookup r "status") "unhealthy" || h.IsShuttingDown) = true
      then 503 else 200 := by rw [← he]
  have hp2 : p.2 = r := by rw [← he]
  have hstat : jEqStr (jLookup r "status") "unhealthy" = af := by
    rw [← hrep]; cases af <;> rfl
  refine ⟨by rw [hp2]; exact hr, ?_, ?_⟩
  · rw [hp1, hstat]
    cases af <;> cases hsd : h.IsShuttingDown <;> simp [hsd]
  · rw [hp1, hstat, ← haf]
    cases af <;>
      cases hsd : h.shuttingDown <;>
      simp [HealthService.IsShuttingDown, hsd]

/-- C6 witness: an unhealthy report yields 503 with the report as body. -/
theorem healthz_status_mapping_witness :
    ({ checkers := [("certificate", { Name := "certificate",
                                      response := some (some "cert expired") })],
       ready := true, shuttingDown := false } : HealthService).Check "t" =
      some (JValue.obj [
        ("status", JValue.str "unhealthy"),
        ("timestamp", JValue.str "t"), ("ready", JValue.bool true),
        ("shutting_down", JValue.bool false),
        ("checks", JValue.obj [
          ("certificate", JValue.obj [("status", JValue.str "unhealthy"),
                                      ("error", JValue.str "cert expired")])])]) := by
  have h := healthz_status_mapping
    { checkers := [("certificate", { Name := "certificate",
                                     response := some (some "cert expired") })],
      ready := true, shuttingDown := false } "t"
    (503, JValue.obj [
      ("status", JValue.str "unhealthy"),
      ("timestamp", JValue.str "t"), ("ready", JValue.bool true),
      ("shutting_down", JValue.bool false),
      ("checks", JValue.obj [
        ("certificate", JValue.obj [("status", JValue.str "unhealthy"),
                                    ("error", JValue.str "cert expired")])])]) rfl
  exact h.1

/-- Every element of the checker list zipped with its own `checks` image
pairs each checker with its `checkEntry`. -/
theorem zip_map_checkEntry (l : List (String × HealthChecker)) :
    ∀ q ∈ (l.map (fun p => (p.1, checkEntry p.2))).zip l,
      q.1 = (q.2.1, checkEntry q.2.2) := by
  induction l with
  | nil => intro q hq; simp at hq
  | cons p rest ih =>
    intro q hq
    rw [List.map_cons, List.zip_cons_cons, List.mem_cons] at hq
    rcases hq with rfl | hq
    · rfl
    · exact ih q hq

/-- Shape of a failing checker's `checks` entry. -/
theorem checkEntry_fail (c : HealthChecker) (hf : checkerFails c = true) :
    jKeys (checkEntry c) = ["status", "error"] ∧
    jLookup (checkEntry c) "status" = some (JValue.str "unhealthy") ∧
    ∃ e, c.response = some (some e) ∧
      jLookup (checkEntry c) "error" = some (JValue.str e) := by
  rcases hc : c.response with - | e'
  · rw [checkerFails, hc] at hf
    exact absurd hf (by simp)
  rcases e' with - | e
  · rw [checkerFails, hc] at hf
    exact absurd hf (by simp)
  · refine ⟨?_, ?_, e, rfl, ?_⟩ <;> rw [checkEntry, hc] <;> rfl

/-- Shape of a healthy checker's `checks` entry. -/
theorem checkEntry_ok (c : HealthChecker) (hf : checkerFails c = false) :
    jKeys (checkEntry c) = ["status"] ∧
    jLookup (checkEntry c) "status" = some (JValue.str "healthy") := by
  rcases hc : c.response with - | e'
  · exact ⟨by rw [checkEntry, hc]; rfl, by rw [checkEntry, hc]; rfl⟩
  rcases e' with - | e
  · exact ⟨by rw [checkEntry, hc]; rfl, by rw [checkEntry, hc]; rfl⟩
  · rw [checkerFails, hc] at hf
    exact absurd hf (by simp)

/-- C7: the report has exactly the keys `status`, `timestamp`, `ready`,
`shutting_down`, `checks`; the `checks` object carries one entry per
registered checker, whose `status` is `"healthy"` or `"unhealthy"` and
whose `error` key is present exactly when that checker failed, carrying
the checker's own error string. -/
theorem report_field_names (h : HealthService) (ts : String) (r : JValue)
    (hr : h.Check ts = some r) :
    jKeys r = ["status", "timestamp", "ready", "shutting_down", "checks"] ∧
    ∃ cs, jLookup r "checks" = some (JValue.obj cs) ∧
      cs.map Prod.fst = h.checkers.map Prod.fst ∧
      ∀ q ∈ cs.zip h.checkers,
        (checkerFails q.2.2 = true →
          jKeys q.1.2 = ["status", "error"] ∧
          jLookup q.1.2 "status" = some (JValue.str "unhealthy") ∧
          ∃ e, q.2.2.response = some (some e) ∧
            jLookup q.1.2 "error" = some (JValue.str e)) ∧
        (checkerFails q.2.2 = false →
          jKeys q.1.2 = ["status"] ∧
          jLookup q.1.2 "status" = some (JValue.str "healthy")) := by
  rcases Option.map_eq_some'.mp hr with ⟨⟨res, af⟩, hrc, he⟩
  obtain ⟨hres, -⟩ := runCheckers_eq _ _ _ hrc
  subst he
  subst hres
  refine ⟨rfl, h.checkers.map (fun p => (p.1, checkEntry p.2)), ?_, ?_, ?_⟩
  · rfl
  · simp
  · intro q hq
    have hq1 := zip_map_checkEntry h.checkers q hq
    rw [hq1]
    exact ⟨fun hf => checkEntry_fail _ hf, fun hf => checkEntry_ok _ hf⟩

/-- C7 witness: report shape for one failing checker. -/
theorem report_field_names_witness :
    jKeys (JValue.obj [
      ("status", JValue.str "unhealthy"),
      ("timestamp", JValue.str "t"), ("ready", JValue.bool false),
      ("shutting_down", JValue.bool false),
      ("checks", JValue.obj [
        ("certificate", JValue.obj [("status", JValue.str "unhealthy"),
                                    ("error", JValue.str "cert expired")])])])
      = ["status", "timestamp", "ready", "shutting_down", "checks"] := by
  have h := report_field_names
    { checkers := [("certificate", { Name := "certificate",
                                     response := some (some "cert expired") })],
      ready := false, shuttingDown := false } "t" _ rfl
  simpa using h.1

/-- Registering places the checker under its own name. -/
theorem find?_mapInsert_self (m : List (String × HealthChecker)) (k : String)
    (v : HealthChecker) :
    (mapInsert m k v).find? (fun p => p.1 = k) = some (k, v) := by
  induction m with
  | nil => simp [mapInsert]
  | cons p rest ih =>
    by_cases hp : p.1 = k
    · simp [mapInsert, hp]
    · simp [mapInsert, hp, ih]

/-- Registering leaves entries under other names untouched. -/
theorem find?_mapInsert_ne (m : List (String × HealthChecker)) (k k' : String)
    (v : HealthChecker) (hk : k' ≠ k) :
    (mapInsert m k v).find? (fun p => p.1 = k')
      = m.find? (fun p => p.1 = k') := by
  induction m with
  | nil => simp [mapInsert, Ne.symm hk]
  | cons p rest ih =>
    by_cases hp : p.1 = k
    · simp [mapInsert, hp, Ne.symm hk]
    · by_cases hp' : p.1 = k'
      · simp [mapInsert, hp, hp', hk]
      · simp [mapInsert, hp, hp', ih]

/-- Re-registering under the same name overwrites: only the last
registration remains. -/
theorem mapInsert_overwrite (m : List (String × HealthChecker)) (k : String)
    (v₁ v₂ : HealthChecker) :
    mapInsert (mapInsert m k v₁) k v₂ = mapInsert m k v₂ := by
  induction m with
  | nil => simp [mapInsert]
  | cons p rest ih =>
    by_cases hp : p.1 = k
    · simp [mapInsert, hp]
    · simp [mapInsert, hp, ih]

/-- The registered name is always among the map's keys afterwards. -/
theorem mapInsert_mem_keys (m : List (String × HealthChecker)) (k : String)
    (v : HealthChecker) :
    k ∈ (mapInsert m k v).map Prod.fst := by
  induction m with
  | nil => simp [mapInsert]
  | cons p rest ih =>
    by_cases hp : p.1 = k <;> simp [mapInsert, hp, ih]

/-- Lookup by key commutes with building the `checks` entries. -/
theorem find?_map_checkEntry (l : List (String × HealthChecker)) (k : String) :
    (l.map (fun p => (p.1, checkEntry p.2))).find? (fun p => p.1 = k)
      = (l.find? (fun p => p.1 = k)).map (fun p => (p.1, checkEntry p.2)) := by
  induction l with
  | nil => rfl
  | cons p rest ih =>
    by_cases hp : p.1 = k <;> simp [hp, ih]

/-- C8: `RegisterChecker` always succeeds, inserting or replacing the
entry under `checker.Name()`; it changes no other entry and no flag; with
two same-named registrations only the last remains, and every registered
checker appears in subsequent aggregations — with the entry under the
name reflecting the last-registered checker. -/
theorem register_checker_spec (h : HealthService) (c : HealthChecker) :
    ((h.RegisterChecker c).checkers.find? (fun p => p.1 = c.Name) = some (c.Name, c)) ∧
    (∀ k, k ≠ c.Name →
      (h.RegisterChecker c).checkers.find? (fun p => p.1 = k)
        = h.checkers.find? (fun p => p.1 = k)) ∧
    ((h.RegisterChecker c).ready = h.ready ∧
     (h.RegisterChecker c).shuttingDown = h.shuttingDown) ∧
    (∀ c₁ : HealthChecker, c₁.Name = c.Name →
      (h.RegisterChecker c₁).RegisterChecker c = h.RegisterChecker c) ∧
    (∀ ts r, (h.RegisterChecker c).Check ts = some r →
      ∃ cs, jLookup r "checks" = some (JValue.obj cs) ∧
        cs.map Prod.fst = (h.RegisterChecker c).checkers.map Prod.fst ∧
        c.Name ∈ cs.map Prod.fst ∧
        cs.find? (fun p => p.1 = c.Name) = some (c.Name, checkEntry c)) := by
  refine ⟨find?_mapInsert_self _ _ _,
          fun k hk => find?_mapInsert_ne _ _ _ _ hk,
          ⟨rfl, rfl⟩,
          fun c₁ hname => ?_, fun ts r hcr => ?_⟩
  · show ({ checkers := mapInsert (mapInsert h.checkers c₁.Name c₁) c.Name c,
            ready := h.ready, shuttingDown := h.shuttingDown } : HealthService) = _
    rw [hname, mapInsert_overwrite]
    rfl
  · rcases Option.map_eq_some'.mp hcr with ⟨⟨res, af⟩, hrc, he⟩
    obtain ⟨hres, -⟩ := runCheckers_eq _ _ _ hrc
    subst he
    subst hres
    refine ⟨(h.RegisterChecker c).checkers.map (fun p => (p.1, checkEntry p.2)),
            ?_, by simp, ?_, ?_⟩
    · rfl
    · simpa using mapInsert_mem_keys h.checkers c.Name c
    · rw [find?_map_checkEntry]
      rw [show (h.RegisterChecker c).checkers = mapInsert h.checkers c.Name c from rfl,
          find?_mapInsert_self]
      rfl

/-- C8 witness: registering a fresh checker on the empty service. -/
theorem register_checker_spec_witness :
    (NewHealthService.RegisterChecker
        { Name := "certificate", response := some none }).checkers.find?
      (fun p => p.1 = "certificate")
      = some ("certificate", { Name := "certificate", response := some none }) ∧
    (NewHealthService.RegisterChecker
        { Name := "certificate", response := some none }).checkers.find?
      (fun p => p.1 = "other")
      = NewHealthService.checkers.find? (fun p => p.1 = "other") := by
  have h := register_checker_spec NewHealthService
    { Name := "certificate", response := some none }
  exact ⟨h.1, h.2.1 "other" (by simp)⟩

/-- C10: `Logger.WithFields` returns a logger with the same level, service
name, environment, formatter and output as the receiver, and ignores its
`fields` argument entirely: all subsequent logging behaves exactly as on
the original logger. -/
theorem withFields_ignores_fields (l : Logger) (fields : List (String × JValue)) :
    l.WithFields fields = l ∧
    ∀ (tr sp : Option String) (lv : Level) (msg : String) (g : List (String × JValue)),
      (l.WithFields fields).logRecord tr sp lv msg g = l.logRecord tr sp lv msg g :=
  ⟨rfl, fun _ _ _ _ _ => rfl⟩

/-- C1: in the coordinated shutdown, `shuttingDown` is set to true first
and `ready` set to false second (at `flaggedDown`, `ready` is still
untouched while `shuttingDown` is already true); both writes are complete
in every state at or past the start of component teardown; and in no
reachable state after draining has started and before teardown completes
does the `/readyz` probe observe the instance as ready. -/
theorem shutdown_flag_ordering (h₀ : HealthService) (s : SPC × HealthService)
    (hreach : ShutdownReachable h₀ s) :
    (s.1 ≠ SPC.triggered → s.2.shuttingDown = true) ∧
    (s.1 = SPC.flaggedDown → s.2.ready = h₀.ready) ∧
    (s.1 ≠ SPC.triggered → s.1 ≠ SPC.flaggedDown →
      s.2.shuttingDown = true ∧ s.2.ready = false) ∧
    (s.1 ≠ SPC.triggered → s.1 ≠ SPC.done → readyzHandler s.2 ≠ (200, "ready")) := by
  obtain ⟨h1, h2, h3⟩ := shutdown_reachable_cases h₀ s hreach
  by_cases ht : s.1 = SPC.triggered
  · exact ⟨fun hc => absurd ht hc, fun hc => absurd (hc ▸ ht) (by simp),
           fun hc => absurd ht hc, fun hc => absurd ht hc⟩
  by_cases hf : s.1 = SPC.flaggedDown
  · have hs2 := h2 hf
    refine ⟨fun _ => by rw [hs2]; rfl, fun _ => by rw [hs2]; rfl,
            fun _ hc => absurd hf hc, fun _ _ => ?_⟩
    rw [hs2]
    simp [readyzHandler, HealthService.IsShuttingDown, HealthService.SetShuttingDown]
  · have hs2 := h3 ht hf
    refine ⟨fun _ => by rw [hs2]; rfl, fun hc => absurd hc hf,
            fun _ _ => by rw [hs2]; exact ⟨rfl, rfl⟩, fun _ _ => ?_⟩
    rw [hs2]
    simp [readyzHandler, HealthService.IsShuttingDown, HealthService.SetShuttingDown,
          HealthService.SetReady]

/-- C1 witness: the concrete run signal → `SetShuttingDown` → `SetReady` →
HTTP teardown, starting from a ready, serving registry. -/
theorem shutdown_flag_ordering_witness :
    readyzHandler ((({ checkers := [], ready := true, shuttingDown := false }
        : HealthService).SetShuttingDown true).SetReady false) ≠ (200, "ready") := by
  have hreach : ShutdownReachable { checkers := [], ready := true, shuttingDown := false }
      (SPC.httpDown, (({ checkers := [], ready := true, shuttingDown := false }
        : HealthService).SetShuttingDown true).SetReady false) :=
    Relation.ReflTransGen.tail (Relation.ReflTransGen.tail (Relation.ReflTransGen.tail
      Relation.ReflTransGen.refl
      (ShutdownStep.setShuttingDown _)) (ShutdownStep.setReady _))
      (ShutdownStep.httpShutdown _)
  exact (shutdown_flag_ordering _ _ hreach).2.2.2 (by simp) (by simp)

/-- C5 (counterexample): with the HTTP server's teardown blocking past the
shared 30-unit deadline and the tunnel server able to drain in 1 unit,
the sequential coordinator in `main` invokes the tunnel server's
`Shutdown` only at the deadline (time 30, not 0), and that component
returns a deadline error instead of completing with `err = nil` — one
blocked component does delay the other and deprives it of its result. -/
theorem sequential_shutdown_counterexample :
    (runShutdownSeq 30 [{ name := "http-server", drainTime := none },
                        { name := "tunnel-server", drainTime := some 1 }] 0).2 =
      [("http-server", 0, some "context deadline exceeded"),
       ("tunnel-server", 30, some "context deadline exceeded")] ∧
    ¬ ∃ o ∈ (runShutdownSeq 30 [{ name := "http-server", drainTime := none },
                                 { name := "tunnel-server", drainTime := some 1 }] 0).2,
        o.1 = "tunnel-server" ∧ o.2.1 = 0 ∧ o.2.2 = none := by
  refine ⟨rfl, ?_⟩
  rintro ⟨o, ho, h1, h2, h3⟩
  have : (runShutdownSeq 30 [{ name := "http-server", drainTime := none },
                             { name := "tunnel-server", drainTime := some 1 }] 0).2 =
      [("http-server", 0, some "context deadline exceeded"),
       ("tunnel-server", 30, some "context deadline exceeded")] := rfl
  rw [this] at ho
  rcases List.mem_cons.mp ho with hhd | ho
  · rw [hhd] at h1; exact absurd h1 (by simp)
  rcases List.mem_cons.mp ho with hhd | ho
  · rw [hhd] at h2; exact absurd h2 (by simp)
  · simp at ho

/-- A component's `Shutdown` returns no earlier than it was invoked. -/
theorem componentShutdown_start_le (c : Component) (now deadline : Nat) :
    now ≤ (componentShutdown c now deadline).1 := by
  rcases c with ⟨n, - | d⟩ <;> simp [componentShutdown]
  split <;> simp

/-- A deadline-respecting component's `Shutdown` returns by the deadline
when invoked before it. -/
theorem componentShutdown_finish_le (c : Component) (now deadline : Nat)
    (h : now ≤ deadline) :
    (componentShutdown c now deadline).1 ≤ deadline := by
  rcases c with ⟨n, - | d⟩ <;> simp [componentShutdown, h]
  split
  · omega
  · simp [h]

/-- The sequential coordinator's invocation times and final return time:
one entry per component in order, every invocation no earlier than the
previous, and the coordinator back by the deadline. -/
theorem runShutdownSeq_spec (comps : List Component) (now deadline : Nat)
    (h : now ≤ deadline) :
    ((runShutdownSeq deadline comps now).2.map (fun o => o.1) = comps.map Component.name) ∧
    (runShutdownSeq deadline comps now).1 ≤ deadline ∧
    List.Chain' (fun a b => a ≤ b)
      (now :: (runShutdownSeq deadline comps now).2.map (fun o => o.2.1)) := by
  induction comps generalizing now with
  | nil => exact ⟨rfl, h, List.chain'_singleton now⟩
  | cons c rest ih =>
    have hfin := componentShutdown_finish_le c now deadline h
    have hstart := componentShutdown_start_le c now deadline
    obtain ⟨ihn, ihd, ihc⟩ := ih (componentShutdown c now deadline).1 hfin
    refine ⟨?_, ?_, ?_⟩
    · simpa [runShutdownSeq] using ihn
    · simpa [runShutdownSeq] using ihd
    · rw [show (runShutdownSeq deadline (c :: rest) now).2
          = (c.name, now, (componentShutdown c now deadline).2)
            :: (runShutdownSeq deadline rest (componentShutdown c now deadline).1).2 from rfl]
      rw [List.map_cons, List.chain'_cons]
      refine ⟨le_refl now, ?_⟩
      rcases (List.chain'_cons'.mp ihc) with ⟨hhd, htl⟩
      exact List.chain'_cons'.mpr ⟨fun y hy => le_trans hstart (hhd y hy), htl⟩

/-- C5 (amended): `main` tears the components down sequentially — the HTTP
server first, then the tunnel server — under the one shared deadline;
each component contributes exactly one result (its `Shutdown` error or
nil, which `main` logs), invocations are ordered, and the coordinator
returns at latest at the shared deadline; but a component blocking past
the deadline delays the next component's `Shutdown` until the deadline
itself. -/
theorem sequential_shutdown_amended :
    (∀ (comps : List Component) (now deadline : Nat), now ≤ deadline →
      ((runShutdownSeq deadline comps now).2.map (fun o => o.1) = comps.map Component.name) ∧
      (runShutdownSeq deadline comps now).1 ≤ deadline ∧
      List.Chain' (fun a b => a ≤ b)
        (now :: (runShutdownSeq deadline comps now).2.map (fun o => o.2.1))) ∧
    (∀ (c₁ c₂ : Component) (deadline : Nat), c₁.drainTime = none →
      (runShutdownSeq deadline [c₁, c₂] 0).2.map (fun o => o.2.1) = [0, deadline]) := by
  refine ⟨runShutdownSeq_spec, fun c₁ c₂ deadline h1 => ?_⟩
  simp [runShutdownSeq, componentShutdown, h1]

/-- C5 witness for the amended theorem: one fast component under a
5-unit deadline. -/
theorem sequential_shutdown_amended_witness :
    ((runShutdownSeq 5 [{ name := "tunnel-server", drainTime := some 1 }] 0).2.map
        (fun o => o.1) = ["tunnel-server"]) ∧
    (runShutdownSeq 5 [{ name := "tunnel-server", drainTime := some 1 }] 0).1 ≤ 5 := by
  obtain ⟨h1, h2, -⟩ := sequential_shutdown_amended.1
    [{ name := "tunnel-server", drainTime := some 1 }] 0 5 (by omega)
  exact ⟨h1, h2⟩

/-- Appending one responding checker to a completed prefix of the loop. -/
theorem runCheckers_append (xs : List (String × HealthChecker)) (n : String)
    (c : HealthChecker) (rs : List (String × JValue)) (af : Bool)
    (hxs : runCheckers xs = some (rs, af)) :
    (∀ e, c.response = some (some e) →
      runCheckers (xs ++ [(n, c)]) =
        some (rs ++ [(n, JValue.obj [("status", JValue.str "unhealthy"),
                                     ("error", JValue.str e)])], true)) ∧
    (c.response = some none →
      runCheckers (xs ++ [(n, c)]) =
        some (rs ++ [(n, JValue.obj [("status", JValue.str "healthy")])], af)) := by
  induction xs generalizing rs af with
  | nil =>
    rw [runCheckers] at hxs
    obtain ⟨rfl, rfl⟩ := Prod.mk.injEq .. ▸ Option.some.inj hxs
    exact ⟨fun e he => by simp [runCheckers, he],
           fun he => by simp [runCheckers, he]⟩
  | cons p rest ih =>
    rcases p with ⟨n', c'⟩
    rcases hc' : c'.response with - | (- | e')
    · rw [runCheckers, hc'] at hxs
      exact absurd hxs (by simp)
    · rw [runCheckers, hc'] at hxs
      rcases Option.map_eq_some'.mp hxs with ⟨⟨r1, a1⟩, hr, he⟩
      obtain ⟨rfl, rfl⟩ := Prod.mk.injEq .. ▸ he
      obtain ⟨ih1, ih2⟩ := ih r1 a1 hr
      constructor
      · intro e hce
        rw [List.cons_append, runCheckers, hc', ih1 e hce]
        rfl
      · intro hce
        rw [List.cons_append, runCheckers, hc', ih2 hce]
        rfl
    · rw [runCheckers, hc'] at hxs
      rcases Option.map_eq_some'.mp hxs with ⟨⟨r1, a1⟩, hr, he⟩
      obtain ⟨rfl, rfl⟩ := Prod.mk.injEq .. ▸ he
      obtain ⟨ih1, ih2⟩ := ih r1 a1 hr
      constructor
      · intro e hce
        rw [List.cons_append, runCheckers, hc', ih1 e hce]
        rfl
      · intro hce
        rw [List.cons_append, runCheckers, hc', ih2 hce]
        rfl

/-- Invariant tying an in-flight `Check` frame to the registry: while the
read lock is held the registry equals the acquisition-time snapshot, the
flag reads agree with the snapshot, and the processed prefix is exactly
the loop's output on the corresponding prefix of the snapshot's
checkers. -/
def frameOK (svc : HealthService) (f : CheckFrame) : Prop :=
  svc = f.snapshot ∧
  (∀ rv, f.readyVal = some rv → rv = f.snapshot.ready) ∧
  (∀ sv, f.shuttingVal = some sv → sv = f.snapshot.shuttingDown) ∧
  ∃ pre, f.snapshot.checkers = pre ++ f.remaining ∧
    runCheckers pre = some (f.processed, f.anyFail)

/-- Global invariant of the interleaved system: any finished report is the
atomic `Check` of a single registry state. -/
def SysInv (ts : String) (s : SysState) : Prop :=
  match s.phase with
  | CheckPhase.idle => True
  | CheckPhase.running f => frameOK s.svc f
  | CheckPhase.finished r => ∃ sn : HealthService, sn.Check ts = some r

/-- Every interleaved step preserves the invariant. -/
theorem regStep_inv (ts : String) (s s' : SysState) (hstep : RegStep ts s s')
    (hinv : SysInv ts s) : SysInv ts s' := by
  cases hstep with
  | acquire s =>
    exact ⟨rfl, fun rv h => Option.noConfusion h, fun sv h => Option.noConfusion h,
           [], rfl, rfl⟩
  | readReady s sn rem =>
    obtain ⟨hsvc, -, -, hpre⟩ := hinv
    have hs : s = sn := hsvc
    subst hs
    exact ⟨rfl, fun rv h => (Option.some.inj h).symm,
           fun sv h => Option.noConfusion h, hpre⟩
  | readShutting s sn rv rem =>
    obtain ⟨hsvc, hrv, -, hpre⟩ := hinv
    have hs : s = sn := hsvc
    subst hs
    exact ⟨rfl, hrv, fun sv h => (Option.some.inj h).symm, hpre⟩
  | checkerFail s sn rv sv done af name c rest e hresp =>
    obtain ⟨hsvc, hrv, hsv, pre, hsplit, hrun⟩ := hinv
    refine ⟨hsvc, hrv, hsv, pre ++ [(name, c)], ?_, ?_⟩
    · rw [hsplit, List.append_assoc]
      rfl
    · exact ((runCheckers_append pre name c done af hrun).1 e hresp)
  | checkerOk s sn rv sv done af name c rest hresp =>
    obtain ⟨hsvc, hrv, hsv, pre, hsplit, hrun⟩ := hinv
    refine ⟨hsvc, hrv, hsv, pre ++ [(name, c)], ?_, ?_⟩
    · rw [hsplit, List.append_assoc]
      rfl
    · exact ((runCheckers_append pre name c done af hrun).2 hresp)
  | release s sn rv sv done af =>
    obtain ⟨hsvc, hrv, hsv, pre, hsplit, hrun⟩ := hinv
    rw [List.append_nil] at hsplit
    subst hsplit
    refine ⟨sn, ?_⟩
    rw [HealthService.Check, hrun, hrv rv rfl, hsv sv rfl]
    rfl
  | writer s op p hfree =>
    cases p with
    | idle => exact trivial
    | running f => exact absurd hfree (by simp [holdsReadLock])
    | finished r => exact hinv

/-- The invariant holds in every reachable state. -/
theorem regReachable_inv (ts : String) (svc₀ : HealthService) (s : SysState)
    (hreach : RegReachable ts svc₀ s) : SysInv ts s := by
  induction hreach with
  | refl => exact trivial
  | tail _ hstep ih => exact regStep_inv _ _ _ hstep ih

/-- C9: `Check` holds the read lock from its first flag read through the
last checker invocation, so writers cannot interleave: in every reachable
state the registry still equals the snapshot taken at lock acquisition
while an aggregation is running, and every report the aggregation returns
equals the atomic `Check` of one single registry state — one consistent
snapshot of the flag pair and the checker set. -/
theorem check_snapshot_consistency (ts : String) (svc₀ : HealthService) (s : SysState)
    (hreach : RegReachable ts svc₀ s) :
    (∀ f, s.phase = CheckPhase.running f → s.svc = f.snapshot) ∧
    (∀ r, s.phase = CheckPhase.finished r →
      ∃ sn : HealthService, sn.Check ts = some r) := by
  have hinv := regReachable_inv ts svc₀ s hreach
  obtain ⟨svc, phase⟩ := s
  constructor
  · intro f hf
    cases hf
    exact hinv.1
  · intro r hr
    cases hr
    exact hinv

/-- C9 witness: a complete lock-acquire / read / release run on a concrete
registry, whose report is the atomic `Check` of that registry. -/
theorem check_snapshot_consistency_witness :
    ∃ sn : HealthService, sn.Check "t" = some (JValue.obj [
      ("status", JValue.str "healthy"), ("timestamp", JValue.str "t"),
      ("ready", JValue.bool false), ("shutting_down", JValue.bool false),
      ("checks", JValue.obj [])]) := by
  have h1 : Relation.ReflTransGen (RegStep "t")
      ⟨{ checkers := [], ready := false, shuttingDown := false }, CheckPhase.idle⟩
      ⟨{ checkers := [], ready := false, shuttingDown := false }, CheckPhase.idle⟩ :=
    Relation.ReflTransGen.refl
  have h2 := h1.tail (RegStep.acquire _)
  have h3 := h2.tail (RegStep.readReady _ _ _)
  have h4 := h3.tail (RegStep.readShutting _ _ _ _)
  have h5 := h4.tail (RegStep.release _ _ _ _ _ _)
  exact (check_snapshot_consistency "t" _ _ h5).2 _ rfl

end GoTunnel
